import Mathlib

/-!
Verification development for the PolySniper dashboard (`src/sniper.py`).

The pipeline is embedded shallowly:
* JSON values are the inductive `Json`; Python's `json.loads` is modelled by
  `json_loads`, a recursive-descent parser over the JSON subset exchanged here
  (null / true / false, signed decimal numbers without exponents, strings
  without escape sequences, arrays, objects);
* Python's `float(...)` coercion is `pyFloat`; truthiness is `pyTruthy`;
* `fetch_markets_advanced` (the fetch / flatten loop), the RUN-DEEP-SCAN
  filter mask and ActionDensity computation, and `analyze_risk_llm` together
  with the audit render block are each embedded as explicit functions, with
  the HTTP layer abstracted to a response oracle and every Python exception
  path made explicit through `Except` / early termination.

Numeric values are rationals (`ℚ`); every quantity appearing in the script
(prices such as 0.5, the 0.1 epsilon, volumes and day counts) is exactly
representable, so float rounding plays no role in the claims proved below.
-/

/-- A JSON value, as produced by Python's `json.loads`. -/
inductive Json where
  | null : Json
  | bool : Bool → Json
  | num : ℚ → Json
  | str : String → Json
  | arr : List Json → Json
  | obj : List (String × Json) → Json

/-- The opening-brace character, kept as a named constant. -/
def lbrace : Char := Char.ofNat 123

/-- The closing-brace character, kept as a named constant. -/
def rbrace : Char := Char.ofNat 125

/-- Python truthiness (`if x:`) on JSON values: `None`, `False`, `0`,
empty string, empty list and empty dict are falsy. -/
def pyTruthy : Json → Bool
  | Json.null => false
  | Json.bool b => b
  | Json.num q => decide (q ≠ 0)
  | Json.str s => decide (s ≠ "")
  | Json.arr l => !l.isEmpty
  | Json.obj l => !l.isEmpty

/-- Skip JSON whitespace. -/
def skipWs : List Char → List Char
  | [] => []
  | c :: rest =>
    if c = ' ' || c = '\t' || c = '\n' || c = '\r' then skipWs rest else c :: rest

/-- Consume a maximal run of decimal digits. -/
def takeDigits : List Char → List Char × List Char
  | [] => ([], [])
  | c :: rest =>
    if c.isDigit then
      let p := takeDigits rest
      (c :: p.1, p.2)
    else ([], c :: rest)

/-- Interpret a digit run as a natural number. -/
def natOfDigits (l : List Char) : Nat :=
  l.foldl (fun a c => a * 10 + (c.toNat - 48)) 0

/-- Parse a signed decimal literal (optional minus sign, integer digits,
optional fractional digits); models the numeric grammar shared by JSON
numbers and Python `float(...)` on the plain decimal literals used here. -/
def parseNum (l : List Char) : Option (ℚ × List Char) :=
  let sgn : Bool × List Char := match l with
    | '-' :: r => (true, r)
    | _ => (false, l)
  let ip := takeDigits sgn.2
  if ip.1.isEmpty then none
  else
    let intPart : ℚ := (natOfDigits ip.1 : ℚ)
    match ip.2 with
    | '.' :: l3 =>
      let fp := takeDigits l3
      if fp.1.isEmpty then none
      else
        let q : ℚ := intPart + (natOfDigits fp.1 : ℚ) / ((10 : ℚ) ^ fp.1.length)
        some (if sgn.1 then -q else q, fp.2)
    | l2 => some (if sgn.1 then -intPart else intPart, l2)

/-- Parse the body of a JSON string (after the opening quote) up to the
closing quote; escape sequences do not occur in the payloads modelled. -/
def parseStrChars : List Char → Option (List Char × List Char)
  | [] => none
  | c :: rest =>
    if c = '"' then some ([], rest)
    else
      match parseStrChars rest with
      | some p => some (c :: p.1, p.2)
      | none => none

/-- Character list of the literal `null`. -/
def nullChars : List Char := "null".toList

/-- Character list of the literal `true`. -/
def trueChars : List Char := "true".toList

/-- Character list of the literal `false`. -/
def falseChars : List Char := "false".toList

mutual

/-- Fuel-indexed JSON value parser. -/
def parseVal : Nat → List Char → Option (Json × List Char)
  | 0, _ => none
  | Nat.succ fuel, l =>
    match skipWs l with
    | [] => none
    | c :: rest =>
      if c = '[' then
        match skipWs rest with
        | ']' :: r2 => some (Json.arr [], r2)
        | r2 =>
          match parseElems fuel r2 with
          | some p => some (Json.arr p.1, p.2)
          | none => none
      else if c = lbrace then
        let r2 := skipWs rest
        if r2.head? = some rbrace then some (Json.obj [], r2.tail)
        else
          match parseMembers fuel r2 with
          | some p => some (Json.obj p.1, p.2)
          | none => none
      else if c = '"' then
        match parseStrChars rest with
        | some p => some (Json.str (String.mk p.1), p.2)
        | none => none
      else if List.isPrefixOf nullChars (c :: rest) then
        some (Json.null, (c :: rest).drop 4)
      else if List.isPrefixOf trueChars (c :: rest) then
        some (Json.bool true, (c :: rest).drop 4)
      else if List.isPrefixOf falseChars (c :: rest) then
        some (Json.bool false, (c :: rest).drop 5)
      else
        match parseNum (c :: rest) with
        | some p => some (Json.num p.1, p.2)
        | none => none

/-- Parse one-or-more comma-separated array elements up to `]`. -/
def parseElems : Nat → List Char → Option (List Json × List Char)
  | 0, _ => none
  | Nat.succ fuel, l =>
    match parseVal fuel l with
    | some p =>
      match skipWs p.2 with
      | ',' :: r2 =>
        match parseElems fuel r2 with
        | some q => some (p.1 :: q.1, q.2)
        | none => none
      | ']' :: r2 => some ([p.1], r2)
      | _ => none
    | none => none

/-- Parse one-or-more comma-separated object members up to the closing brace. -/
def parseMembers : Nat → List Char → Option (List (String × Json) × List Char)
  | 0, _ => none
  | Nat.succ fuel, l =>
    match skipWs l with
    | '"' :: r =>
      match parseStrChars r with
      | some kp =>
        match skipWs kp.2 with
        | ':' :: r3 =>
          match parseVal fuel r3 with
          | some vp =>
            match skipWs vp.2 with
            | ',' :: r5 =>
              match parseMembers fuel r5 with
              | some q => some ((String.mk kp.1, vp.1) :: q.1, q.2)
              | none => none
            | c :: r5 =>
              if c = rbrace then some ([(String.mk kp.1, vp.1)], r5) else none
            | [] => none
          | none => none
        | _ => none
      | none => none
    | _ => none

end

/-- Python `json.loads`: parse a complete JSON document, requiring the whole
input (modulo trailing whitespace) to be consumed; `none` models the raised
`JSONDecodeError`. -/
def json_loads (s : String) : Option Json :=
  match parseVal (2 * s.length + 4) s.toList with
  | some p => if (skipWs p.2).isEmpty then some p.1 else none
  | none => none

/-- Python `float(x)` on a string: strips surrounding whitespace and parses a
decimal literal; `none` models the raised `ValueError`. -/
def pyFloatStr (s : String) : Option ℚ :=
  match parseNum (skipWs s.toList) with
  | some p => if (skipWs p.2).isEmpty then some p.1 else none
  | none => none

/-- Python `float(x)` on a JSON value; `none` models the raised
`TypeError`/`ValueError` for non-numeric inputs. -/
def pyFloat : Json → Option ℚ
  | Json.num q => some q
  | Json.bool b => some (if b then 1 else 0)
  | Json.str s => pyFloatStr s
  | _ => none

/-- A raw market object inside an event payload; each field models the
corresponding `m.get(...)` access in `fetch_markets_advanced`
(`none` = key absent). -/
structure PyMarket where
  question : Option String
  volume : Option Json
  liquidity : Option Json
  endDate : Option String
  outcomePrices : Option Json
  outcomes : Option Json

/-- A raw event object from the events endpoint, with the fields read by
`fetch_markets_advanced`. -/
structure PyEvent where
  title : Option String
  slug : Option String
  markets : Option (List PyMarket)

/-- One flattened market row, the dict appended to `all_items`. -/
structure Record where
  event : Option String
  question : Option String
  slug : Option String
  volume : ℚ
  liquidity : ℚ
  endDate : Option String
  priceSum : ℚ
  outcomes : Option Json

/-- The `prices` expression of line 171: a JSON-encoded string goes through
`json.loads` (whose failure is an exception escaping to the page loop's
`except`), a native value is used as-is, and an absent key defaults to the
empty list. -/
def marketPrices (m : PyMarket) : Except Unit Json :=
  match m.outcomePrices with
  | some (Json.str s) =>
    match json_loads s with
    | some j => Except.ok j
    | none => Except.error ()
  | some j => Except.ok j
  | none => Except.ok (Json.arr [])

/-- `[float(p) for p in prices]` on a list: left-to-right conversion, the
first failure raising (`none`). -/
def floatList : List Json → Option (List ℚ)
  | [] => some []
  | j :: rest =>
    match pyFloat j, floatList rest with
    | some q, some qs => some (q :: qs)
    | _, _ => none

/-- `sum([float(p) for p in prices])`: iterating a JSON list converts each
element, iterating a string converts each character; any other value (or a
failing conversion) raises, modelled by `none`. -/
def sumFloats : Json → Option ℚ
  | Json.arr l => (floatList l).map List.sum
  | Json.str s => (floatList (s.toList.map (fun c => Json.str (String.mk [c])))).map List.sum
  | _ => none

/-- `price_sum` of lines 173-176: `sum(...) if prices else 0`, with the inner
`try/except` defaulting any conversion failure to 0. -/
def pricesSum (prices : Json) : ℚ :=
  if pyTruthy prices then (sumFloats prices).getD 0 else 0

/-- Lift an optional value into the page loop's exception monad
(`none` = a raised Python exception). -/
def orRaise : Option ℚ → Except Unit ℚ
  | some q => Except.ok q
  | none => Except.error ()

/-- Flatten one market of one event (the body of the inner `for m in markets`
loop): compute `prices`/`price_sum`, then build the row, where
`float(m.get('volume', 0))` and `float(m.get('liquidity', 0))` may raise. -/
def processMarket (evTitle evSlug : Option String) (m : PyMarket) :
    Except Unit Record := do
  let prices ← marketPrices m
  let priceSum := pricesSum prices
  let vol ← orRaise (pyFloat (m.volume.getD (Json.num 0)))
  let liq ← orRaise (pyFloat (m.liquidity.getD (Json.num 0)))
  Except.ok
    { event := evTitle, question := m.question, slug := evSlug,
      volume := vol, liquidity := liq, endDate := m.endDate,
      priceSum := priceSum, outcomes := m.outcomes }

/-- Flatten the markets of one event in order; an exception keeps the rows
already appended and abandons the rest (`true` = exception escaped). -/
def processMarkets (evTitle evSlug : Option String) :
    List PyMarket → List Record × Bool
  | [] => ([], false)
  | m :: rest =>
    match processMarket evTitle evSlug m with
    | Except.ok r =>
      let p := processMarkets evTitle evSlug rest
      (r :: p.1, p.2)
    | Except.error _ => ([], true)

/-- Flatten a page's event list in order (the `for event in data` loop);
an exception keeps all rows appended so far and abandons the rest. -/
def processEvents : List PyEvent → List Record × Bool
  | [] => ([], false)
  | ev :: rest =>
    let p := processMarkets ev.title ev.slug (ev.markets.getD [])
    if p.2 then (p.1, true)
    else
      let q := processEvents rest
      (p.1 ++ q.1, q.2)

/-- Outcome of one `requests.get` on the events endpoint: a non-success
status (`not r.ok`), a raised exception (connection failure or `r.json()`
failure), or a parsed event array. -/
inductive PageResp where
  | httpErr : PageResp
  | exn : PageResp
  | ok : List PyEvent → PageResp

/-- The query parameters built for one page request. -/
structure ReqParams where
  closed : Bool
  limit : Nat
  offset : Nat
  order : String
  ascending : Bool
  tag_id : Option Nat

/-- The `params` dict of lines 151-159: fixed page size 50 and
`offset = page * 50`. -/
def requestParams (page : Nat) (t : Option Nat) : ReqParams :=
  { closed := false, limit := 50, offset := page * 50,
    order := "id", ascending := false, tag_id := t }

/-- The page loop of `fetch_markets_advanced`, starting at page `p` with `n`
pages still allowed; returns the flattened rows together with the list of
page indices actually requested.  A non-success status, an empty payload, or
any exception terminates the loop (`break`), keeping the rows accumulated. -/
def fetchFrom (resp : Nat → PageResp) : Nat → Nat → List Record × List Nat
  | _, 0 => ([], [])
  | p, Nat.succ n =>
    match resp p with
    | PageResp.httpErr => ([], [p])
    | PageResp.exn => ([], [p])
    | PageResp.ok evs =>
      if evs.isEmpty then ([], [p])
      else
        let pr := processEvents evs
        if pr.2 then (pr.1, [p])
        else
          let rest := fetchFrom resp (p + 1) n
          (pr.1 ++ rest.1, p :: rest.2)

/-- `fetch_markets_advanced(pages, tag_id)` with the HTTP layer abstracted to
a per-page response oracle: the rows of the returned DataFrame. -/
def fetch_markets_advanced (pages : Nat) (resp : Nat → PageResp) : List Record :=
  (fetchFrom resp 0 pages).1

/-- The ascending run of `k` page indices starting at `p` (the shape of the
request sequence the loop can issue). -/
def seqFrom : Nat → Nat → List Nat
  | _, 0 => []
  | p, Nat.succ k => p :: seqFrom (p + 1) k

/-- A page at which the loop continues normally: successful status, non-empty
payload, and no exception while flattening. -/
def pageOk (resp : Nat → PageResp) (p : Nat) : Prop :=
  ∃ evs, resp p = PageResp.ok evs ∧ evs.isEmpty = false ∧
    (processEvents evs).2 = false

/-- The rows contributed by page `p` (empty unless the page returned data). -/
def pageRecs (resp : Nat → PageResp) (p : Nat) : List Record :=
  match resp p with
  | PageResp.ok evs => (processEvents evs).1
  | _ => []

/-- The rows accumulated by `k` consecutive pages starting at `p`. -/
def accUpTo (resp : Nat → PageResp) : Nat → Nat → List Record
  | _, 0 => []
  | p, Nat.succ k => pageRecs resp p ++ accUpTo resp (p + 1) k

/-- The two columns of a scan row that the RUN-DEEP-SCAN filter mask and the
ActionDensity computation read (`df['Volume']` and the derived
`df['DaysLeft']`). -/
structure ScanRow where
  volume : ℚ
  daysLeft : ℚ
deriving DecidableEq

/-- The boolean mask of line 221:
`(DaysLeft > 0) & (DaysLeft <= days_left_max) & (Volume >= min_volume)`. -/
def scanMask (days_left_max min_volume : ℚ) (r : ScanRow) : Bool :=
  decide (r.daysLeft > 0) && decide (r.daysLeft ≤ days_left_max) &&
    decide (r.volume ≥ min_volume)

/-- `df[mask]`: the rows surviving the filter, in order. -/
def scanFilter (days_left_max min_volume : ℚ) (rows : List ScanRow) :
    List ScanRow :=
  rows.filter (scanMask days_left_max min_volume)

/-- Line 225: `Volume / DaysLeft.clip(lower=0.1)`, i.e. volume divided by
`max daysLeft (1/10)`. -/
def actionDensity (volume daysLeft : ℚ) : ℚ :=
  volume / max daysLeft (1 / 10)

/-- The static fallback model list of lines 23-67 (order preserved). -/
def MODEL_FALLBACK_LIST : List String :=
  ["qwen/qwen3-coder:free",
   "google/gemini-2.0-flash-exp:free",
   "kwaipilot/kat-coder-pro:free",
   "deepseek/deepseek-r1-0528:free",
   "deepseek/deepseek-chat-v3-0324:free",
   "deepseek/deepseek-r1:free",
   "tngtech/deepseek-r1t2-chimera:free",
   "tngtech/deepseek-r1t-chimera:free",
   "microsoft/mai-ds-r1:free",
   "deepseek/deepseek-chat-v3.1:free",
   "openai/gpt-oss-20b:free",
   "mistralai/mistral-small-3.2-24b-instruct:free",
   "mistralai/mistral-nemo:free",
   "google/gemma-3-27b-it:free",
   "z-ai/glm-4.5-air:free",
   "deepseek/deepseek-r1-0528-qwen3-8b:free",
   "alibaba/tongyi-deepresearch-30b-a3b:free",
   "meituan/longcat-flash-chat:free",
   "nousresearch/hermes-3-llama-3.1-405b:free",
   "meta-llama/llama-3.3-70b-instruct:free",
   "meta-llama/llama-3.2-3b-instruct:free",
   "nvidia/nemotron-nano-12b-v2-vl:free",
   "nvidia/nemotron-nano-9b-v2:free",
   "meta-llama/llama-3.3-8b-instruct:free",
   "meta-llama/llama-4-maverick:free",
   "meta-llama/llama-4-scout:free",
   "mistralai/mistral-small-3.1-24b-instruct:free",
   "agentica-org/deepcoder-14b-preview:free",
   "qwen/qwen3-4b:free",
   "qwen/qwen3-30b-a3b:free",
   "qwen/qwen3-14b:free",
   "qwen/qwen3-235b-a22b:free",
   "moonshotai/kimi-k2:free",
   "mistralai/mistral-small-24b-instruct-2501:free",
   "mistralai/mistral-7b-instruct:free",
   "qwen/qwen-2.5-coder-32b-instruct:free",
   "qwen/qwen-2.5-72b-instruct:free",
   "google/gemma-3-4b-it:free",
   "google/gemma-3-12b-it:free",
   "qwen/qwen2.5-vl-32b-instruct:free",
   "google/gemma-3n-e2b-it:free",
   "google/gemma-3n-e4b-it:free",
   "deepseek/deepseek-r1-distill-llama-70b:free"]

/-- Outcome of one chat-completion POST for a given model: a raised
exception (connection/timeout failure, or a missing
`choices[0].message.content` path making extraction raise), or a response
with its HTTP status code and extracted content string. -/
inductive Attempt where
  | exn : Attempt
  | status : Nat → String → Attempt

/-- Split off the part after the first occurrence of `pat`:
`some (before, after)` when `pat` occurs (mirrors Python's
`s.split(pat)[1]` being available after an `in` check). -/
def splitFirst (pat : List Char) : List Char → Option (List Char × List Char)
  | [] => if pat.isEmpty then some ([], []) else none
  | c :: rest =>
    if List.isPrefixOf pat (c :: rest) then some ([], (c :: rest).drop pat.length)
    else
      match splitFirst pat rest with
      | some p => some (c :: p.1, p.2)
      | none => none

/-- The triple-backtick fence marker. -/
def fenceMark : String := "```"

/-- The json-tagged fence marker. -/
def fenceJsonMark : String := "```json"

/-- Lines 132-133: drop an optional code fence around the model content.
`content.split("```json")[1].split("```")[0]` keeps what stands between the
first json fence and the next fence; otherwise the same with a bare fence;
otherwise the content unchanged. -/
def stripFences (s : String) : String :=
  let l := s.toList
  match splitFirst fenceJsonMark.toList l with
  | some p =>
    match splitFirst fenceMark.toList p.2 with
    | some q => String.mk q.1
    | none => String.mk p.2
  | none =>
    match splitFirst fenceMark.toList l with
    | some p =>
      match splitFirst fenceMark.toList p.2 with
      | some q => String.mk q.1
      | none => String.mk p.2
    | none => s

/-- The audit cache `st.session_state['audits']`, keyed by slug; a dict
write is modelled by a cons whose entry shadows older ones under
`cacheGet`. -/
def Cache : Type := List (String × Json)

/-- `st.session_state['audits'].get(slug)`. -/
def cacheGet (c : Cache) (slug : String) : Option Json :=
  match List.find? (fun p => p.1 == slug) c with
  | some p => some p.2
  | none => none

/-- `st.session_state['audits'][slug] = result`. -/
def cacheSet (c : Cache) (slug : String) (v : Json) : Cache :=
  (slug, v) :: c

/-- The sentinel returned on exhaustion of the model list (line 142). -/
def errorSentinel : Json :=
  Json.obj
    [("risk_score", Json.num 0),
     ("verdict", Json.str ("ERROR")),
     ("reasoning", Json.str ("AI unavailable."))]

/-- The `for model in MODEL_FALLBACK_LIST` loop of `analyze_risk_llm`: each
attempt that raises, returns a non-200 status, or yields content that fails
`json.loads` after fence stripping moves on to the next model; the first
parseable 200 response is written to the cache and returned; exhaustion
returns the sentinel with the cache untouched. -/
def tryModels (resp : String → Attempt) (slug : String) (cache : Cache) :
    List String → Cache × Json
  | [] => (cache, errorSentinel)
  | m :: rest =>
    match resp m with
    | Attempt.exn => tryModels resp slug cache rest
    | Attempt.status code content =>
      if code = 200 then
        match json_loads (stripFences content) with
        | some result => (cacheSet cache slug result, result)
        | none => tryModels resp slug cache rest
      else tryModels resp slug cache rest

/-- `analyze_risk_llm` with the HTTP layer abstracted to a per-model response
oracle; returns the updated cache and the result value. -/
def analyze_risk_llm (resp : String → Attempt) (slug : String)
    (cache : Cache) : Cache × Json :=
  tryModels resp slug cache MODEL_FALLBACK_LIST

/-- Python truthiness of `audits.get(slug)` (absence is `None`, falsy). -/
def pyTruthyOpt : Option Json → Bool
  | some v => pyTruthy v
  | none => false

/-- The audit column of the render block (lines 259-276): when
`st.session_state['audits'].get(slug)` is truthy the cached result is shown;
otherwise a button is rendered and, when pressed, `analyze_risk_llm` runs
(issuing LLM HTTP calls) followed by a rerun.  Returns the cache after the
step, whether `analyze_risk_llm` was invoked, and the displayed cached
result (if any). -/
def auditStep (resp : String → Attempt) (cache : Cache) (slug : String)
    (pressed : Bool) : Cache × Bool × Option Json :=
  let existing := cacheGet cache slug
  if pyTruthyOpt existing then (cache, false, existing)
  else if pressed then
    let r := analyze_risk_llm resp slug cache
    (r.1, true, none)
  else (cache, false, none)

/-- `result.get(key)` on a parsed JSON object. -/
def objGet (j : Json) (k : String) : Option Json :=
  match j with
  | Json.obj l =>
    match List.find? (fun p => p.1 == k) l with
    | some p => some p.2
    | none => none
  | _ => none

/-- The JSON key `risk_score`. -/
def rsKey : String := "risk_score"

/-- The JSON key `verdict`. -/
def verdictKey : String := "verdict"

/-- The AuditResult shape the spec asserts: `risk_score` an integer in 0..10
and `verdict` one of SAFE / RISKY / ERROR. -/
def validAudit (j : Json) : Bool :=
  (match objGet j rsKey with
   | some (Json.num q) =>
     decide (q.den = 1) && decide (0 ≤ q.num) && decide (q.num ≤ 10)
   | _ => false) &&
  (match objGet j verdictKey with
   | some (Json.str v) => (v == "SAFE") || (v == "RISKY") || (v == "ERROR")
   | _ => false)

/-- Character list of the scheme marker `http://`. -/
def httpChars : List Char := "http://".toList

/-- Character list of the scheme marker `https://`. -/
def httpsChars : List Char := "https://".toList

/-- Character list of the host marker `www.`. -/
def wwwChars : List Char := "www.".toList

/-- Does the list start with `http://` or `https://`? -/
def startsHttp (l : List Char) : Bool :=
  List.isPrefixOf httpChars l || List.isPrefixOf httpsChars l

/-- First suffix starting with an HTTP/HTTPS URL, if any. -/
def findUrl : List Char → Option (List Char)
  | [] => none
  | c :: rest =>
    if startsHttp (c :: rest) then some (c :: rest) else findUrl rest

/-- Does `http://` or `https://` occur as a substring? -/
def hasUrlSub : List Char → Bool
  | [] => false
  | c :: rest => startsHttp (c :: rest) || hasUrlSub rest

/-- Drop the URL scheme (`https://` or `http://`) from a match produced by
`findUrl`. -/
def dropScheme (l : List Char) : List Char :=
  if List.isPrefixOf httpsChars l then l.drop 8 else l.drop 7

/-- The authority (host) component: everything up to the first path, query,
fragment or whitespace delimiter. -/
def urlHost (l : List Char) : List Char :=
  l.takeWhile fun c =>
    !(c = '/' || c = '?' || c = '#' || c = ' ' || c = '\t' || c = '\n' || c = '\r')

/-- Strip one leading `www.` from a host. -/
def stripWww (host : List Char) : List Char :=
  if List.isPrefixOf wwwChars host then host.drop 4 else host

/-- Modelled from the spec: the resolution-source extractor (spec §4.3) is
not part of `src/sniper.py`; per the spec it finds the first substring
matching an HTTP/HTTPS URL, returns its host component with a leading
`www.` stripped, and returns the "No Link" sentinel when no URL is
present. -/
def extract_source (d : String) : String :=
  match findUrl d.toList with
  | none => "No Link"
  | some u => String.mk (stripWww (urlHost (dropScheme u)))

/-- An attempt the model loop skips: a raised exception, a non-200 status,
or a 200 whose content fails `json.loads` after fence stripping. -/
def attemptFailed (a : Attempt) : Prop :=
  a = Attempt.exn ∨
  (∃ c s, a = Attempt.status c s ∧ c ≠ 200) ∨
  (∃ s, a = Attempt.status 200 s ∧ json_loads (stripFences s) = none)

theorem tryModels_fail (resp : String → Attempt) (slug : String) (cache : Cache)
    (ms : List String) (h : ∀ m ∈ ms, attemptFailed (resp m)) :
    tryModels resp slug cache ms = (cache, errorSentinel) := by
  induction ms with
  | nil => rfl
  | cons m t ih =>
    have hm := h m (List.mem_cons_self m t)
    have ht := ih fun x hx => h x (List.mem_cons_of_mem m hx)
    rcases hm with h1 | ⟨c, s, he, hc⟩ | ⟨s, he, hp⟩
    · simp only [tryModels, h1]; exact ht
    · simp only [tryModels, he]; rw [if_neg hc]; exact ht
    · simp only [tryModels, he]; simp only [if_pos rfl] at *; simp [hp]; exact ht

theorem tryModels_first (resp : String → Attempt) (slug : String) (cache : Cache)
    (pre post : List String) (m content : String) (result : Json)
    (hpre : ∀ x ∈ pre, attemptFailed (resp x))
    (hm : resp m = Attempt.status 200 content)
    (hp : json_loads (stripFences content) = some result) :
    tryModels resp slug cache (pre ++ m :: post) =
      (cacheSet cache slug result, result) := by
  induction pre with
  | nil => simp [List.nil_append, tryModels, hm, hp]
  | cons x t ih =>
    have hx := hpre x (List.mem_cons_self x t)
    have ht := ih fun y hy => hpre y (List.mem_cons_of_mem x hy)
    rcases hx with h1 | ⟨c, s, he, hc⟩ | ⟨s, he, hq⟩
    · simp only [List.cons_append, tryModels, h1]; exact ht
    · simp only [List.cons_append, tryModels, he]; rw [if_neg hc]; exact ht
    · simp only [List.cons_append, tryModels, he]; simp [hq]; exact ht

theorem tryModels_shape (resp : String → Attempt) (slug : String) (cache : Cache)
    (ms : List String) :
    (tryModels resp slug cache ms).2 = errorSentinel ∨
    ∃ m ∈ ms, ∃ content, resp m = Attempt.status 200 content ∧
      json_loads (stripFences content) = some (tryModels resp slug cache ms).2 := by
  induction ms with
  | nil => left; rfl
  | cons m t ih =>
    cases ha : resp m with
    | exn =>
      have hstep : tryModels resp slug cache (m :: t) = tryModels resp slug cache t := by
        simp only [tryModels, ha]
      rw [hstep]
      rcases ih with h | ⟨x, hx, c, h1, h2⟩
      · exact Or.inl h
      · exact Or.inr ⟨x, List.mem_cons_of_mem m hx, c, h1, h2⟩
    | status code content =>
      by_cases hc : code = 200
      · subst hc
        cases hp : json_loads (stripFences content) with
        | none =>
          have hstep : tryModels resp slug cache (m :: t) = tryModels resp slug cache t := by
            simp [tryModels, ha, hp]
          rw [hstep]
          rcases ih with h | ⟨x, hx, c, h1, h2⟩
          · exact Or.inl h
          · exact Or.inr ⟨x, List.mem_cons_of_mem m hx, c, h1, h2⟩
        | some v =>
          have hstep : tryModels resp slug cache (m :: t) = (cacheSet cache slug v, v) := by
            simp [tryModels, ha, hp]
          exact Or.inr ⟨m, List.mem_cons_self m t, content, ha, by rw [hstep]; exact hp⟩
      · have hstep : tryModels resp slug cache (m :: t) = tryModels resp slug cache t := by
          simp only [tryModels, ha]; rw [if_neg hc]
        rw [hstep]
        rcases ih with h | ⟨x, hx, c, h1, h2⟩
        · exact Or.inl h
        · exact Or.inr ⟨x, List.mem_cons_of_mem m hx, c, h1, h2⟩

theorem floatList_of_some (l : List Json)
    (h : ∀ j ∈ l, (pyFloat j).isSome = true) :
    floatList l = some (l.map fun j => (pyFloat j).getD 0) := by
  induction l with
  | nil => rfl
  | cons a t ih =>
    obtain ⟨q, hq⟩ := Option.isSome_iff_exists.mp (h a (List.mem_cons_self a t))
    have ht := ih fun j hj => h j (List.mem_cons_of_mem a hj)
    simp [floatList, hq, ht]

theorem pricesSum_arr (l : List Json) (h : ∀ j ∈ l, (pyFloat j).isSome = true) :
    pricesSum (Json.arr l) = (l.map fun j => (pyFloat j).getD 0).sum := by
  cases l with
  | nil => simp [pricesSum, pyTruthy]
  | cons a t =>
    have hf := floatList_of_some (a :: t) h
    simp [pricesSum, pyTruthy, sumFloats, hf]

theorem findUrl_eq_none (l : List Char) (h : hasUrlSub l = false) :
    findUrl l = none := by
  induction l with
  | nil => rfl
  | cons c rest ih =>
    simp only [hasUrlSub, Bool.or_eq_false_iff] at h
    simp [findUrl, h.1, ih h.2]

theorem fetchFrom_length (resp : Nat → PageResp) :
    ∀ n p, (fetchFrom resp p n).2.length ≤ n := by
  intro n
  induction n with
  | zero => intro p; exact Nat.le_refl 0
  | succ n ih =>
    intro p
    cases hr : resp p with
    | httpErr => simp [fetchFrom, hr]
    | exn => simp [fetchFrom, hr]
    | ok evs =>
      cases he : evs.isEmpty with
      | true => simp [fetchFrom, hr, he]
      | false =>
        cases hp2 : (processEvents evs).2 with
        | true => simp [fetchFrom, hr, he, hp2]
        | false =>
          have := ih (p + 1)
          simp only [fetchFrom, hr, he, hp2]
          simpa using Nat.succ_le_succ this

theorem fetchFrom_seq (resp : Nat → PageResp) :
    ∀ n p, ∃ k, k ≤ n ∧ (fetchFrom resp p n).2 = seqFrom p k := by
  intro n
  induction n with
  | zero => intro p; exact ⟨0, Nat.le_refl 0, rfl⟩
  | succ n ih =>
    intro p
    cases hr : resp p with
    | httpErr =>
      exact ⟨1, Nat.succ_le_succ (Nat.zero_le n), by simp [fetchFrom, hr, seqFrom]⟩
    | exn =>
      exact ⟨1, Nat.succ_le_succ (Nat.zero_le n), by simp [fetchFrom, hr, seqFrom]⟩
    | ok evs =>
      cases he : evs.isEmpty with
      | true =>
        exact ⟨1, Nat.succ_le_succ (Nat.zero_le n), by simp [fetchFrom, hr, he, seqFrom]⟩
      | false =>
        cases hp2 : (processEvents evs).2 with
        | true =>
          exact ⟨1, Nat.succ_le_succ (Nat.zero_le n), by simp [fetchFrom, hr, he, hp2, seqFrom]⟩
        | false =>
          obtain ⟨k, hk, heq⟩ := ih (p + 1)
          exact ⟨k + 1, Nat.succ_le_succ hk, by simp [fetchFrom, hr, he, hp2, seqFrom, heq]⟩

theorem fetchFrom_exn (resp : Nat → PageResp) (p n : Nat)
    (h : resp p = PageResp.exn) :
    fetchFrom resp p (n + 1) = ([], [p]) := by
  simp [fetchFrom, h]

theorem fetchFrom_httpErr (resp : Nat → PageResp) (p n : Nat)
    (h : resp p = PageResp.httpErr) :
    fetchFrom resp p (n + 1) = ([], [p]) := by
  simp [fetchFrom, h]

theorem fetchFrom_empty (resp : Nat → PageResp) (p n : Nat)
    (h : resp p = PageResp.ok []) :
    fetchFrom resp p (n + 1) = ([], [p]) := by
  simp [fetchFrom, h, List.isEmpty]

theorem fetchFrom_procErr (resp : Nat → PageResp) (p n : Nat) (evs : List PyEvent)
    (h : resp p = PageResp.ok evs) (he : evs.isEmpty = false)
    (hp2 : (processEvents evs).2 = true) :
    fetchFrom resp p (n + 1) = ((processEvents evs).1, [p]) := by
  simp [fetchFrom, h, he, hp2]

theorem fetch_split (resp : Nat → PageResp) :
    ∀ k p n, (∀ j, j < k → pageOk resp (p + j)) → k ≤ n →
      (fetchFrom resp p n).1 =
        accUpTo resp p k ++ (fetchFrom resp (p + k) (n - k)).1 := by
  intro k
  induction k with
  | zero => intro p n _ _; simp [accUpTo]
  | succ k ih =>
    intro p n h hk
    obtain ⟨m, rfl⟩ : ∃ m, n = m + 1 := ⟨n - 1, by omega⟩
    obtain ⟨evs, hr, he, hp2⟩ := by
      have := h 0 (Nat.succ_pos k)
      rwa [Nat.add_zero] at this
    have ihm := ih (p + 1) m
      (fun j hj => by
        have hpj := h (j + 1) (Nat.succ_lt_succ hj)
        rwa [show p + (j + 1) = p + 1 + j by omega] at hpj)
      (by omega)
    have hstep : (fetchFrom resp p (m + 1)).1 =
        (processEvents evs).1 ++ (fetchFrom resp (p + 1) m).1 := by
      simp [fetchFrom, hr, he, hp2]
    rw [hstep, ihm]
    have hidx1 : p + 1 + k = p + (k + 1) := by omega
    have hidx2 : m - k = m + 1 - (k + 1) := by omega
    rw [show accUpTo resp p (k + 1) = pageRecs resp p ++ accUpTo resp (p + 1) k from rfl]
    rw [show pageRecs resp p = (processEvents evs).1 by simp [pageRecs, hr]]
    rw [List.append_assoc, hidx1, hidx2]

/-! Concrete payloads used as witnesses and counterexamples. -/

/-- An `outcomePrices` wire value: the JSON-encoded string `[0.5, 0.5]`. -/
def goodPricesStr : String := "[0.5, 0.5]"

/-- A JSON-encoded `outcomePrices` string that `json.loads` rejects. -/
def unparseableStr : String := "oops"

/-- A market with native outcome prices `[0.5, 0.5]` and volume 100. -/
def mHalfNative : PyMarket :=
  { question := some ("q-half"), volume := some (Json.num 100), liquidity := none,
    endDate := none,
    outcomePrices := some (Json.arr [Json.num (1 / 2), Json.num (1 / 2)]),
    outcomes := none }

/-- A market whose outcome prices arrive as the JSON-encoded string. -/
def mHalfJson : PyMarket :=
  { question := some ("q-json"), volume := none, liquidity := none,
    endDate := none, outcomePrices := some (Json.str goodPricesStr),
    outcomes := none }

/-- A market with an empty native outcome-price list. -/
def mEmptyPrices : PyMarket :=
  { question := some ("q-empty"), volume := none, liquidity := none,
    endDate := none, outcomePrices := some (Json.arr []), outcomes := none }

/-- A market whose native outcome-price list has a non-numeric element. -/
def mBadElem : PyMarket :=
  { question := some ("q-bad-elem"), volume := none, liquidity := none,
    endDate := none, outcomePrices := some (Json.arr [Json.str ("zz")]),
    outcomes := none }

/-- A market whose outcome prices arrive as an unparseable JSON string. -/
def mBadJson : PyMarket :=
  { question := some ("q-bad-json"), volume := none, liquidity := none,
    endDate := none, outcomePrices := some (Json.str unparseableStr),
    outcomes := none }

/-- An event whose first market has unparseable string prices and whose
second market is well-formed. -/
def evC1 : PyEvent :=
  { title := some ("E1"), slug := some ("e1"),
    markets := some [mBadJson, mHalfNative] }

/-- An event with a single well-formed market. -/
def evGood : PyEvent :=
  { title := some ("E1"), slug := some ("e1"), markets := some [mHalfNative] }

/-- Page oracle: page 0 carries `evC1`, later pages carry `evGood`. -/
def respC1 : Nat → PageResp :=
  fun p => if p = 0 then PageResp.ok [evC1] else PageResp.ok [evGood]

/-- Page oracle returning an empty payload on every page. -/
def respEmpty0 : Nat → PageResp := fun _ => PageResp.ok []

/-- Page oracle: page 0 succeeds with `evGood`, every later request raises. -/
def respC5 : Nat → PageResp :=
  fun p => if p = 0 then PageResp.ok [evGood] else PageResp.exn

/-- A slug used in audit examples. -/
def slugEx : String := "e1"

/-- Model oracle on which every attempt returns HTTP 500. -/
def respFail : String → Attempt := fun _ => Attempt.status 500 "boom"

/-- Model oracle on which every attempt raises. -/
def respExnAll : String → Attempt := fun _ => Attempt.exn

/-- A 200 response body whose JSON object is outside the claimed
AuditResult shape (risk_score 99, verdict MAYBE). -/
def c8content : String :=
  "\x7b\"risk_score\": 99, \"verdict\": \"MAYBE\", \"reasoning\": \"x\"\x7d"

/-- Model oracle on which the very first attempt yields `c8content`. -/
def respC8 : String → Attempt := fun _ => Attempt.status 200 c8content

/-- A cache holding a falsy value (the empty JSON object) for `slugEx`. -/
def emptyObjCache : Cache := [(slugEx, Json.obj [])]

/-- A cache holding a truthy audit result for `slugEx`. -/
def sentinelCache : Cache := [(slugEx, errorSentinel)]

/-- A description without any URL. -/
def noUrlDesc : String := "resolution by official sources"

/-- A description whose first URL has a `www.` host. -/
def wwwDesc : String := "See http://www.bls.gov/page for data"

/-- The excluded boundary row of the spec: volume 9999, 3 days left. -/
def rowA : ScanRow := { volume := 9999, daysLeft := 3 }

/-- The included boundary row of the spec: volume 10000, 5 days left. -/
def rowB : ScanRow := { volume := 10000, daysLeft := 5 }

section

attribute [local semireducible] Rat.add Rat.mul Rat.inv Rat.sub Rat.ofScientific

/-- C1 counterexample: a market whose `outcomePrices` is the unparseable
JSON-encoded string `oops` makes `json.loads` raise, which the page loop's
`except` turns into a `break`: the record is NOT emitted (pricing failure is
fatal here), the well-formed second market of the same event is dropped, and
page 1 is never requested — contradicting the claim that such a record is
still emitted with priceSum 0 and that subsequent events/pages are still
processed. -/
theorem C1_counterexample :
    processEvents [evC1] = ([], true) ∧
    fetch_markets_advanced 2 respC1 = [] ∧
    (fetchFrom respC1 0 2).2 = [0] :=
  ⟨rfl, rfl, rfl⟩

/-- C1 (amended): priceSum is the arithmetic sum of the parsed outcome
prices whenever every element converts (`[0.5, 0.5]` gives exactly 1 in both
the JSON-string and native forms); an empty list or a list with a
non-convertible element yields priceSum 0 non-fatally (the record is emitted
and later markets are still processed); but a JSON-encoded string that fails
to parse raises, so that record is not emitted and the remaining events and
pages of the fetch are abandoned. -/
theorem C1_amended_thm :
    (∀ l : List Json, (∀ j ∈ l, (pyFloat j).isSome = true) →
        pricesSum (Json.arr l) = (l.map fun j => (pyFloat j).getD 0).sum)
  ∧ (∃ r, processMarket (some ("E1")) (some ("e1")) mHalfJson = Except.ok r ∧
      r.priceSum = 1)
  ∧ (∃ r, processMarket (some ("E1")) (some ("e1")) mHalfNative = Except.ok r ∧
      r.priceSum = 1)
  ∧ (∃ r, processMarket (some ("E1")) (some ("e1")) mEmptyPrices = Except.ok r ∧
      r.priceSum = 0)
  ∧ (∃ r, processMarket (some ("E1")) (some ("e1")) mBadElem = Except.ok r ∧
      r.priceSum = 0)
  ∧ (processMarkets (some ("E1")) (some ("e1")) [mBadElem, mHalfNative]).1.length = 2
  ∧ processMarket (some ("E1")) (some ("e1")) mBadJson = Except.error ()
  ∧ (processEvents [evC1]).1 = []
  ∧ (processEvents [evC1]).2 = true := by
  refine ⟨pricesSum_arr, ⟨_, rfl, by decide⟩, ⟨_, rfl, by decide⟩,
    ⟨_, rfl, by decide⟩, ⟨_, rfl, by decide⟩, rfl, rfl, rfl, rfl⟩

/-- Witness for C1: the sum formula evaluated at the concrete price list
`[0.5, 0.5]`. -/
theorem C1_witness :
    pricesSum (Json.arr [Json.num (1 / 2), Json.num (1 / 2)]) =
      (([Json.num (1 / 2), Json.num (1 / 2)]).map fun j => (pyFloat j).getD 0).sum :=
  C1_amended_thm.1 [Json.num (1 / 2), Json.num (1 / 2)] (by decide)

/-- C2: the deep-scan filter keeps a record iff `daysLeft > 0`,
`daysLeft ≤ maxDaysLeft` (inclusive) and `volume ≥ minVolume` (inclusive);
at `minVolume = 10000, maxDaysLeft = 5`: volume 9999 / 3 days is excluded,
volume 10000 / 5 days is included, and a record with `daysLeft = -1` is
excluded whatever its volume. -/
theorem C2_thm :
    (∀ (dmax mv : ℚ) (r : ScanRow),
        scanMask dmax mv r = true ↔
          0 < r.daysLeft ∧ r.daysLeft ≤ dmax ∧ mv ≤ r.volume)
  ∧ (∀ (dmax mv : ℚ) (rows : List ScanRow) (r : ScanRow),
        r ∈ scanFilter dmax mv rows ↔ r ∈ rows ∧ scanMask dmax mv r = true)
  ∧ scanMask 5 10000 rowA = false
  ∧ scanMask 5 10000 rowB = true
  ∧ (∀ v : ℚ, scanMask 5 10000 { volume := v, daysLeft := -1 } = false) := by
  refine ⟨?_, ?_, by decide, by decide, ?_⟩
  · intro dmax mv r
    simp [scanMask, Bool.and_eq_true, decide_eq_true_eq, and_assoc, gt_iff_lt,
      ge_iff_le]
  · intro dmax mv rows r
    simp [scanFilter, List.mem_filter]
  · intro v
    have h : decide ((-1 : ℚ) > 0) = false := by decide
    simp [scanMask, h]

/-- C3: actionDensity = volume / max(daysLeft, 1/10) is monotonically
non-decreasing in volume for fixed daysLeft (volume ≥ 0), non-increasing in
daysLeft for fixed volume ≥ 0, and its denominator is bounded below by the
epsilon floor 1/10. -/
theorem C3_thm :
    (∀ d v1 v2 : ℚ, 0 ≤ v1 → v1 ≤ v2 →
        actionDensity v1 d ≤ actionDensity v2 d)
  ∧ (∀ v d1 d2 : ℚ, 0 ≤ v → d1 ≤ d2 →
        actionDensity v d2 ≤ actionDensity v d1)
  ∧ (∀ d : ℚ, 1 / 10 ≤ max d (1 / 10)) := by
  refine ⟨?_, ?_, fun d => le_max_right d (1 / 10)⟩
  · intro d v1 v2 _ h12
    have hd : (0 : ℚ) ≤ max d (1 / 10) :=
      le_trans (by norm_num) (le_max_right d (1 / 10))
    exact div_le_div_of_nonneg_right h12 hd
  · intro v d1 d2 hv h
    have h1 : (0 : ℚ) < max d1 (1 / 10) :=
      lt_of_lt_of_le (by norm_num) (le_max_right d1 (1 / 10))
    have h2 : max d1 (1 / 10) ≤ max d2 (1 / 10) := max_le_max h (le_refl (1 / 10))
    exact div_le_div_of_nonneg_left hv h1 h2

/-- Witness for C3: both monotonicities at concrete volumes/day counts. -/
theorem C3_witness :
    actionDensity 100 3 ≤ actionDensity 200 3 ∧
    actionDensity 100 5 ≤ actionDensity 100 3 :=
  ⟨C3_thm.1 3 100 200 (by decide) (by decide),
   C3_thm.2.1 100 3 5 (by decide) (by decide)⟩

/-- C4: the fetcher issues at most `pages` requests, at sequential page
indices 0,1,2,…, with fixed page size 50 and offset = page × 50; a
non-success status or an empty payload stops it without further requests;
in particular an empty page 0 yields zero records after exactly one
request. -/
theorem C4_thm (resp : Nat → PageResp) (pages : Nat) :
    (fetchFrom resp 0 pages).2.length ≤ pages
  ∧ (∃ k, k ≤ pages ∧ (fetchFrom resp 0 pages).2 = seqFrom 0 k)
  ∧ (∀ p t, (requestParams p t).limit = 50 ∧ (requestParams p t).offset = p * 50)
  ∧ (∀ p n, resp p = PageResp.httpErr → fetchFrom resp p (n + 1) = ([], [p]))
  ∧ (∀ p n, resp p = PageResp.ok [] → fetchFrom resp p (n + 1) = ([], [p]))
  ∧ (resp 0 = PageResp.ok [] → 1 ≤ pages →
      fetch_markets_advanced pages resp = [] ∧ (fetchFrom resp 0 pages).2 = [0]) := by
  refine ⟨fetchFrom_length resp pages 0, fetchFrom_seq resp pages 0,
    fun p t => ⟨rfl, rfl⟩, fun p n h => fetchFrom_httpErr resp p n h,
    fun p n h => fetchFrom_empty resp p n h, fun h0 hp => ?_⟩
  obtain ⟨m, hm⟩ : ∃ m, pages = m + 1 := ⟨pages - 1, by omega⟩
  subst hm
  have hstep := fetchFrom_empty resp 0 m h0
  constructor
  · show (fetchFrom resp 0 (m + 1)).1 = []
    rw [hstep]
  · rw [hstep]

/-- Witness for C4: the empty-page-0 oracle returns no records and requests
only page 0. -/
theorem C4_witness :
    fetch_markets_advanced 3 respEmpty0 = [] ∧ (fetchFrom respEmpty0 0 3).2 = [0] :=
  (C4_thm respEmpty0 3).2.2.2.2.2 rfl (by decide)

/-- C5: if pages before `k` fetch and flatten cleanly and page `k` raises —
either the request itself (`exn`) or flattening its payload — then the fetch
returns exactly the records accumulated before the exception (plus, in the
payload case, the rows appended before the raise), never an error and never
an empty override of earlier pages. -/
theorem C5_thm (resp : Nat → PageResp) (pages k : Nat)
    (hfront : ∀ j, j < k → pageOk resp j) (hk : k < pages) :
    (resp k = PageResp.exn → fetch_markets_advanced pages resp = accUpTo resp 0 k)
  ∧ (∀ evs, resp k = PageResp.ok evs → evs.isEmpty = false →
      (processEvents evs).2 = true →
      fetch_markets_advanced pages resp =
        accUpTo resp 0 k ++ (processEvents evs).1) := by
  have hsplit := fetch_split resp k 0 pages
    (fun j hj => by simpa using hfront j hj) (Nat.le_of_lt hk)
  rw [Nat.zero_add] at hsplit
  obtain ⟨m, hm⟩ : ∃ m, pages - k = m + 1 := ⟨pages - k - 1, by omega⟩
  constructor
  · intro hexn
    have hstep := fetchFrom_exn resp k m hexn
    show (fetchFrom resp 0 pages).1 = accUpTo resp 0 k
    rw [hsplit, hm, hstep]
    simp
  · intro evs hr he hp2
    have hstep := fetchFrom_procErr resp k m evs hr he hp2
    show (fetchFrom resp 0 pages).1 = accUpTo resp 0 k ++ (processEvents evs).1
    rw [hsplit, hm, hstep]

/-- Witness for C5: page 0 clean, page 1 raises; the fetch returns exactly
page 0's records. -/
theorem C5_witness : fetch_markets_advanced 3 respC5 = accUpTo respC5 0 1 :=
  (C5_thm respC5 3 1
    (fun j hj => by
      have hj0 : j = 0 := Nat.lt_one_iff.mp hj
      subst hj0
      exact ⟨[evGood], rfl, rfl, by decide⟩)
    (by decide)).1 rfl

/-- C6: when every candidate model attempt fails (exception, non-200 status,
or unparseable content), `analyze_risk_llm` returns exactly the sentinel
`risk_score 0 / ERROR / AI unavailable.` and the audit cache is returned
unchanged — no entry is written for the slug. -/
theorem C6_thm (resp : String → Attempt) (slug : String) (cache : Cache)
    (h : ∀ m ∈ MODEL_FALLBACK_LIST, attemptFailed (resp m)) :
    analyze_risk_llm resp slug cache = (cache, errorSentinel) :=
  tryModels_fail resp slug cache MODEL_FALLBACK_LIST h

/-- Witness for C6: all models answering HTTP 500 produce the sentinel and
leave the empty cache empty. -/
theorem C6_witness : analyze_risk_llm respFail slugEx [] = ([], errorSentinel) :=
  C6_thm respFail slugEx []
    (fun _ _ => Or.inr (Or.inl ⟨500, "boom", rfl, by decide⟩))

/-- C7 counterexample: the render block guards on Python truthiness of the
cached value (`if existing_audit:`), so a slug whose cache entry is the
falsy empty JSON object does NOT short-circuit: the audit button reappears
and pressing it invokes `analyze_risk_llm` again (issuing new LLM HTTP
calls) although the slug already has an entry in the cache. -/
theorem C7_counterexample :
    cacheGet emptyObjCache slugEx = some (Json.obj []) ∧
    (auditStep respExnAll emptyObjCache slugEx true).2.1 = true :=
  ⟨rfl, rfl⟩

/-- C7 (amended): once a slug's cache entry is truthy (any non-empty audit
object), a later audit step for it issues no LLM call, leaves the cache
unchanged and displays the cached value; and within one audit call the first
model attempt that returns HTTP 200 with parseable content wins — its parsed
result is what is cached and returned.  A falsy cached value (such as the
empty JSON object) does not short-circuit. -/
theorem C7_amended_thm :
    (∀ (resp : String → Attempt) (cache : Cache) (slug : String)
        (pressed : Bool) (v : Json),
        cacheGet cache slug = some v → pyTruthy v = true →
        auditStep resp cache slug pressed = (cache, false, some v))
  ∧ (∀ (resp : String → Attempt) (slug : String) (cache : Cache)
        (pre post : List String) (m content : String) (result : Json),
        (∀ x ∈ pre, attemptFailed (resp x)) →
        resp m = Attempt.status 200 content →
        json_loads (stripFences content) = some result →
        tryModels resp slug cache (pre ++ m :: post) =
          (cacheSet cache slug result, result)) := by
  constructor
  · intro resp cache slug pressed v hget htr
    simp [auditStep, hget, pyTruthyOpt, htr]
  · intro resp slug cache pre post m content result h1 h2 h3
    exact tryModels_first resp slug cache pre post m content result h1 h2 h3

/-- Witness for C7: a truthy cached sentinel short-circuits the audit step. -/
theorem C7_witness :
    auditStep respExnAll sentinelCache slugEx true =
      (sentinelCache, false, some errorSentinel) :=
  C7_amended_thm.1 respExnAll sentinelCache slugEx true errorSentinel rfl
    (by decide)

/-- C8 counterexample: a model response parsed from HTTP 200 content is
stored and returned with no validation: with content carrying
`risk_score 99, verdict MAYBE` the produced AuditResult has riskScore 99
(outside 0..10) and a verdict outside SAFE/RISKY/ERROR. -/
theorem C8_counterexample :
    validAudit (analyze_risk_llm respC8 slugEx []).2 = false ∧
    (match objGet (analyze_risk_llm respC8 slugEx []).2 rsKey with
     | some (Json.num q) => q
     | _ => 0) = 99 :=
  ⟨by decide, by decide⟩

/-- C8 (amended): the exhaustion sentinel does satisfy the claimed shape
(riskScore 0 in 0..10, verdict ERROR); every other produced AuditResult is
exactly the JSON value parsed from the first successful model response,
taken over without any range or enum validation. -/
theorem C8_amended_thm :
    validAudit errorSentinel = true
  ∧ (∀ (resp : String → Attempt) (slug : String) (cache : Cache),
      (analyze_risk_llm resp slug cache).2 = errorSentinel ∨
      ∃ m ∈ MODEL_FALLBACK_LIST, ∃ content,
        resp m = Attempt.status 200 content ∧
        json_loads (stripFences content) = some (analyze_risk_llm resp slug cache).2) :=
  ⟨by decide, fun resp slug cache => tryModels_shape resp slug cache MODEL_FALLBACK_LIST⟩

/-- C9: the resolution-source extractor (modelled from the spec, §4.3)
returns the "No Link" sentinel for every description without an `http://`
or `https://` substring, and when the first URL's host starts with `www.`
the returned host has that marker stripped; concretely
`http://www.bls.gov/page` yields `bls.gov`. -/
theorem C9_thm :
    (∀ d : String, hasUrlSub d.toList = false → extract_source d = "No Link")
  ∧ (∀ (d : String) (u : List Char), findUrl d.toList = some u →
      List.isPrefixOf wwwChars (urlHost (dropScheme u)) = true →
      extract_source d = String.mk ((urlHost (dropScheme u)).drop 4))
  ∧ extract_source wwwDesc = "bls.gov" := by
  refine ⟨?_, ?_, by decide⟩
  · intro d h
    simp only [extract_source, findUrl_eq_none d.toList h]
  · intro d u hu hw
    have hs : stripWww (urlHost (dropScheme u)) = (urlHost (dropScheme u)).drop 4 := by
      unfold stripWww
      rw [if_pos hw]
    simp only [extract_source, hu, hs]

/-- Witness for C9: a URL-free description maps to the sentinel. -/
theorem C9_witness : extract_source noUrlDesc = "No Link" :=
  C9_thm.1 noUrlDesc (by decide)

/-- C10: with a non-negative volume floor (the UI enforces at least 5000),
every row surviving the scan filter has daysLeft strictly positive, an
ActionDensity denominator bounded below by the 0.1 epsilon, and a finite
ActionDensity between 0 and 10 × volume. -/
theorem C10_thm (dmax mv : ℚ) (rows : List ScanRow) (hmv : 0 ≤ mv) :
    ∀ r ∈ scanFilter dmax mv rows,
      0 < r.daysLeft ∧
      (1 / 10 : ℚ) ≤ max r.daysLeft (1 / 10) ∧
      0 ≤ actionDensity r.volume r.daysLeft ∧
      actionDensity r.volume r.daysLeft ≤ 10 * r.volume := by
  intro r hr
  obtain ⟨-, hmask⟩ := List.mem_filter.mp hr
  simp only [scanMask, Bool.and_eq_true, decide_eq_true_eq, gt_iff_lt,
    ge_iff_le] at hmask
  obtain ⟨⟨hd, -⟩, hv⟩ := hmask
  have hv0 : 0 ≤ r.volume := le_trans hmv hv
  have hm10 : (1 / 10 : ℚ) ≤ max r.daysLeft (1 / 10) := le_max_right _ _
  have hmpos : (0 : ℚ) < max r.daysLeft (1 / 10) :=
    lt_of_lt_of_le (by norm_num) hm10
  refine ⟨hd, hm10, div_nonneg hv0 (le_of_lt hmpos), ?_⟩
  rw [actionDensity, div_le_iff₀ hmpos]
  nlinarith [mul_nonneg hv0 (by linarith : (0 : ℚ) ≤ 10 * max r.daysLeft (1 / 10) - 1)]

/-- Witness for C10: the bounds evaluated on the included boundary row. -/
theorem C10_witness :
    0 < rowB.daysLeft ∧
    (1 / 10 : ℚ) ≤ max rowB.daysLeft (1 / 10) ∧
    0 ≤ actionDensity rowB.volume rowB.daysLeft ∧
    actionDensity rowB.volume rowB.daysLeft ≤ 10 * rowB.volume :=
  C10_thm 5 10000 [rowB] (by decide) rowB (by decide)

end
